import Mathlib

/-!
Verification development for the MyREST request-to-SQL gateway.

The definitions below are a shallow embedding of the JavaScript source:
`lib/xsql.js` (executor, pagination, policy composition, primary-key and
nested-embedding SQL emission), `lib/xapi.js` (operation handlers) and
`lib/util/postgrestWhereClause.helper.js` / `lib/util/selectParser.helper.js`
(PostgREST filter and select parsing).  Machine-level JavaScript values are
modelled with an explicit sum type `JsValue`; the handlers' emitted SQL is
modelled as the literal statement text together with the positional
parameter list, exactly as the source hands both to the mysql2 driver.
-/

namespace MyRest

/-- A JavaScript runtime value as the gateway sees claim values and bound
parameters.  Only the structure consulted by the source (`typeof` and
`JSON.stringify`) is retained. -/
inductive JsValue where
  | str (s : String)
  | num (n : Int)
  | boolean (b : Bool)
  | null
  | obj (fields : List (String × JsValue))
  | arr (elems : List JsValue)
deriving Repr

/-- JavaScript `typeof`: note that `typeof null` is the string `"object"`,
exactly as in the language. -/
def jsTypeof : JsValue → String
  | .str _ => "string"
  | .num _ => "number"
  | .boolean _ => "boolean"
  | .null => "object"
  | .obj _ => "object"
  | .arr _ => "object"

/-- Escape of one character inside a JSON string literal
(models `JSON.stringify` string escaping for the characters it affects). -/
def jsonEscapeChar (c : Char) : String :=
  if c = '"' then "\\\""
  else if c = '\\' then "\\\\"
  else if c = '\n' then "\\n"
  else if c = '\t' then "\\t"
  else if c = '\r' then "\\r"
  else String.singleton c

/-- Escape of a whole string for `JSON.stringify`. -/
def jsonEscape (s : String) : String :=
  String.join (s.data.map jsonEscapeChar)

mutual

/-- Model of JavaScript `JSON.stringify` on `JsValue` (no spacing argument,
as called by the executor).  `JSON.stringify(null)` is the four-character
text `"null"`. -/
def jsonStringify : JsValue → String
  | .str s => "\"" ++ jsonEscape s ++ "\""
  | .num n => toString n
  | .boolean b => if b then "true" else "false"
  | .null => "null"
  | .obj fields => "\x7b" ++ jsonFields fields ++ "\x7d"
  | .arr elems => "[" ++ jsonElems elems ++ "]"

/-- Comma-joined `"key":value` pairs of an object for `jsonStringify`. -/
def jsonFields : List (String × JsValue) → String
  | [] => ""
  | [(k, v)] => "\"" ++ jsonEscape k ++ "\":" ++ jsonStringify v
  | (k, v) :: rest =>
      "\"" ++ jsonEscape k ++ "\":" ++ jsonStringify v ++ "," ++ jsonFields rest

/-- Comma-joined elements of an array for `jsonStringify`. -/
def jsonElems : List JsValue → String
  | [] => ""
  | [v] => jsonStringify v
  | v :: rest => jsonStringify v ++ "," ++ jsonElems rest

end

/-- `[A-Za-z0-9_]` test used by the executor's claim-key sanitizer. -/
def isWordChar (c : Char) : Bool :=
  (('a' ≤ c && c ≤ 'z') || ('A' ≤ c && c ≤ 'Z') || ('0' ≤ c && c ≤ '9') || c = '_')

/-- `key.replace(/[^a-zA-Z0-9_]/g, '_')` from `Xsql.exec`. -/
def sanitizeClaimKey (k : String) : String :=
  String.mk (k.data.map (fun c => if isWordChar c then c else '_'))

/-- The executor's claim-value binding: a value whose `typeof` is
`"object"` (objects, arrays, and `null`) is serialized to JSON text before
being bound; every other value is bound as is (`Xsql.exec`,
`if (typeof val === 'object') val = JSON.stringify(val)`). -/
def bindClaimValue (v : JsValue) : JsValue :=
  if jsTypeof v = "object" then .str (jsonStringify v) else v

/-- One parameterized statement handed to the driver: its literal text and
its positional parameters. -/
structure Stmt where
  text : String
  params : List JsValue

/-- The assignment fragment the executor builds for one claim key:
`` `@request_jwt_claim_${safeKey} = ?` ``. -/
def setAssignment (k : String) : String :=
  "@request_jwt_claim_" ++ sanitizeClaimKey k ++ " = ?"

/-- What `Xsql.exec` does with a statement: which statements are dispatched
directly on the pool and which run (in order) on one borrowed connection;
`setAssignments`/`setParams` are the arrays the source builds before
joining them into the single `SET` statement. -/
structure ExecPlan where
  poolStatements : List Stmt
  connStatements : List Stmt
  setAssignments : List String
  setParams : List JsValue

/-- Shallow embedding of `Xsql.exec (query, params, context)`.  A missing
or empty context dispatches the statement directly on the pool; otherwise a
connection is borrowed, one `SET` statement carrying every claim assignment
runs first, then the main statement runs on the same connection. -/
def execPlan (query : String) (params : List JsValue)
    (context : Option (List (String × JsValue))) : ExecPlan :=
  match context with
  | none => ⟨[⟨query, params⟩], [], [], []⟩
  | some ctx =>
    if ctx.length = 0 then ⟨[⟨query, params⟩], [], [], []⟩
    else
      let setStatements := ctx.map (fun kv => setAssignment kv.1)
      let setParams := ctx.map (fun kv => bindClaimValue kv.2)
      if 0 < setStatements.length then
        ⟨[], [⟨"SET " ++ String.intercalate ", " setStatements, setParams⟩,
              ⟨query, params⟩], setStatements, setParams⟩
      else
        ⟨[], [⟨query, params⟩], setStatements, setParams⟩

/-- The query-parameter fields consulted by `Xsql.getLimitClause`; `none`
models a key absent from `reqParams`, `some n` a key present whose
`parseInt` is `n` (the claim concerns numeric values). -/
structure ReqParams where
  limit : Option Int
  size : Option Int
  offset : Option Int
  p : Option Int

/-- Shallow embedding of `Xsql.getLimitClause`: returns
`(_index, _len)`, i.e. `(offset, limit)`.  Defaults `_index = 0`,
`_len = 20`; `limit` wins over `_size`, and `_size` is consulted only when
it is is below `100`; `offset` wins over `_p`, and `_p` is consulted only
when positive. -/
def getLimitClause (q : ReqParams) : Int × Int :=
  let len : Int :=
    match q.limit with
    | some l => l
    | none =>
      match q.size with
      | some s => if s < 100 then s else 20
      | none => 20
  let idx : Int :=
    match q.offset with
    | some o => o
    | none =>
      match q.p with
      | some pv => if 0 < pv then (pv - 1) * len + 1 else 0
      | none => 0
  (idx, len)

/-- Pagination resolution exactly as the claim words it: limit from
`limit`, else from `_size` "with a cap of 100" (i.e. `min _size 100`),
else 20; offset from `offset`, else `(_p - 1) * limit + 1`, else 0. -/
def claimLimitResolve (q : ReqParams) : Int × Int :=
  let len : Int :=
    match q.limit with
    | some l => l
    | none =>
      match q.size with
      | some s => min s 100
      | none => 20
  let idx : Int :=
    match q.offset with
    | some o => o
    | none =>
      match q.p with
      | some pv => (pv - 1) * len + 1
      | none => 0
  (idx, len)

/-- Body of the 406 response built by the `list` handler when the singular
accept header is present and the result does not have exactly one row. -/
def singularNotAcceptableBody (n : Nat) : JsValue :=
  .obj [("message", .str "JSON object requested, multiple (or no) rows returned"),
        ("details", .str ("The result contains " ++ toString n ++ " rows"))]

/-- Shallow embedding of the response-shaping tail of `Xapi.list`
(`lib/xapi.js`): when the request carried
`Accept: application/vnd.pgrst.object+json` (`singular = true`), a
one-row result is returned as status 200 with the bare object, anything
else as status 406 with an explanatory body; without the header the rows
are returned as a 200 array. -/
def shapeListResponse (singular : Bool) (results : List JsValue) : Nat × JsValue :=
  if singular then
    match results with
    | [r] => (200, r)
    | other => (406, singularNotAcceptableBody other.length)
  else (200, .arr results)

/-- JavaScript whitespace test (the common characters of `\s`). -/
def isJsSpace (c : Char) : Bool :=
  c = ' ' || c = '\t' || c = '\n' || c = '\r'

/-- Boolean prefix test on character lists. -/
def listIsPrefixOf : List Char → List Char → Bool
  | [], _ => true
  | _ :: _, [] => false
  | c :: cs, d :: ds => c = d && listIsPrefixOf cs ds

/-- Worker for `jsSplit`; the fuel argument (instantiated with the input
length) only makes the recursion structural, every call keeps
`fuel ≥ l.length` so the exhaustion arm is never taken. -/
def jsSplitGo (sep : List Char) : Nat → List Char → List Char → List (List Char)
  | _, [], buf => [buf.reverse]
  | 0, l, buf => [buf.reverse ++ l]
  | fuel + 1, c :: rest, buf =>
    if listIsPrefixOf sep (c :: rest) && !sep.isEmpty then
      buf.reverse :: jsSplitGo sep fuel ((c :: rest).drop sep.length) []
    else jsSplitGo sep fuel rest (c :: buf)

/-- JavaScript `s.split(sep)` for a non-empty separator (the only form
the source uses: `'.'`, `','`, `'___'`). -/
def jsSplit (sep s : String) : List String :=
  if sep = "" then [s]
  else (jsSplitGo sep.data s.data.length s.data []).map String.mk

/-- JavaScript `s.trim()` (whitespace stripped from both ends). -/
def jsTrim (s : String) : String :=
  String.mk (((s.data.dropWhile isJsSpace).reverse.dropWhile isJsSpace).reverse)

/-- JavaScript `s.startsWith(pre)`. -/
def strStartsWith (s pre : String) : Bool :=
  listIsPrefixOf pre.data s.data

/-- JavaScript `s.endsWith(post)`. -/
def strEndsWith (s post : String) : Bool :=
  listIsPrefixOf post.data.reverse s.data.reverse

/-- `convertBoolean` from `lib/util/postgrestWhereClause.helper.js`:
the literals `true`/`false` become MySQL 1/0, anything else is kept. -/
def convertBoolean (v : String) : JsValue :=
  if v = "true" then .num 1 else if v = "false" then .num 0 else .str v

/-- `getComparisonOperator` from
`lib/util/postgrestWhereClause.helper.js`, case order as in the source;
an unrecognized token yields `none` (the source's `null`). -/
def getComparisonOperator (operator : String) : Option String :=
  if operator = "eq" then some "="
  else if operator = "gt" then some ">"
  else if operator = "gte" then some ">="
  else if operator = "lt" then some "<"
  else if operator = "lte" then some "<="
  else if operator = "neq" then some "!="
  else if operator = "like" then some "LIKE"
  else if operator = "ilike" then some "LIKE"
  else if operator = "is" then some "IS"
  else if operator = "in" then some "IN"
  else none

/-- The value slot of a parsed filter predicate: a scalar, SQL null
(from the unquoted literal `null`), or an `IN` list. -/
inductive CondValue where
  | scalar (v : JsValue)
  | null
  | list (vs : List JsValue)

/-- One parsed filter predicate (`parseCondition`'s result object). -/
structure Condition where
  column : String
  operator : String
  value : CondValue

/-- `parseCondition(key, value)` from
`lib/util/postgrestWhereClause.helper.js`: split on `.`, the first part is
the operator token, the rest (re-joined on `.`) the value; an unknown
operator or a dot-free value yields no predicate. -/
def parseCondition (key value : String) : Option Condition :=
  let parts := jsSplit "." value
  if parts.length < 2 then none
  else
    let operator := parts.headD ""
    let val := String.intercalate "." parts.tail
    match getComparisonOperator operator with
    | none => none
    | some sqlOp =>
      if operator = "in" then
        let inner :=
          if strStartsWith val "(" && strEndsWith val ")" then
            String.mk ((val.data.drop 1).dropLast)
          else val
        some ⟨key, sqlOp,
          .list ((jsSplit "," inner).map (fun v => convertBoolean (jsTrim v)))⟩
      else if val = "null" then some ⟨key, sqlOp, .null⟩
      else some ⟨key, sqlOp, .scalar (convertBoolean val)⟩

/-- A catalog column as cached by `iterateToCacheTableColumns` /
`iterateToCacheTablePks` (only the fields the compiler consults). -/
structure Column where
  column_name : String
  data_type : String

/-- A cached foreign key (`iterateToCacheTableFks`). -/
structure Fk where
  column_name : String
  table_name : String
  referenced_table_name : String
  referenced_column_name : String
  data_type : String

/-- One table of the in-memory catalog `metaDb.tables[name]`. -/
structure TableMeta where
  columns : List Column
  primaryKeys : List Column
  foreignKeys : List Fk

/-- The in-memory catalog: table name to metadata, in insertion order. -/
structure MetaDb where
  tables : List (String × TableMeta)

/-- `this.metaDb.tables[name]` (absent key models JavaScript
`undefined`). -/
def lookupTable (db : MetaDb) (name : String) : Option TableMeta :=
  (db.tables.find? (fun kv => kv.1 = name)).map (fun kv => kv.2)

/-- Boolean substring test on character lists (true iff the first list
occurs contiguously in the second). -/
def listContainsSub (sub : List Char) : List Char → Bool
  | [] => sub.isEmpty
  | c :: rest => listIsPrefixOf sub (c :: rest) || listContainsSub sub rest

/-- JavaScript `s.indexOf(sub) !== -1`. -/
def strContains (s sub : String) : Bool :=
  listContainsSub sub.data s.data

/-- `getDataType(colType, typesArr)` from `lib/xsql.js` as a Boolean:
whether the raw column type mentions any of the given type names. -/
def getDataType (colType : String) (typesArr : List String) : Bool :=
  typesArr.any (fun t => strContains colType t)

/-- `getColumnType` from `lib/xsql.js`: classifies a column's declared
type as string / int / float / date, defaulting to string. -/
def getColumnType (column : Column) : String :=
  let strTypes := ["varchar", "text", "char", "tinytext", "mediumtext", "longtext",
    "blob", "mediumblob", "longblob", "tinyblob", "binary", "varbinary"]
  let intTypes := ["int", "long", "smallint", "mediumint", "bigint", "tinyint"]
  let flatTypes := ["float", "double", "decimal"]
  let dateTypes := ["date", "datetime", "timestamp", "time", "year"]
  if getDataType column.data_type strTypes then "string"
  else if getDataType column.data_type intTypes then "int"
  else if getDataType column.data_type flatTypes then "float"
  else if getDataType column.data_type dateTypes then "date"
  else "string"

/-- Escaping of one character by `mysql.escape` (the sqlstring library)
inside a quoted string literal. -/
def sqlEscapeChar (c : Char) : String :=
  if c = '\'' then "\\\'"
  else if c = '\\' then "\\\\"
  else if c = '"' then "\\\""
  else if c = '\n' then "\\n"
  else if c = '\r' then "\\r"
  else if c = '\t' then "\\t"
  else if c = Char.ofNat 0 then "\\0"
  else if c = Char.ofNat 8 then "\\b"
  else if c = Char.ofNat 26 then "\\Z"
  else String.singleton c

/-- `mysql.escape` applied to a string value: SQL-quoted with the
characters above escaped. -/
def mysqlEscapeString (s : String) : String :=
  "\'" ++ String.join (s.data.map sqlEscapeChar) ++ "\'"

/-- Decimal value of the digit prefix of a character list; `none` when
there is no digit (JavaScript `NaN`). -/
def digitsVal (l : List Char) : Option Nat :=
  let ds := l.takeWhile Char.isDigit
  if ds.isEmpty then none
  else some (ds.foldl (fun acc c => acc * 10 + (c.toNat - 48)) 0)

/-- JavaScript `parseInt` in base 10: skip whitespace, optional sign,
longest digit prefix; `none` models `NaN`. -/
def jsParseInt (s : String) : Option Int :=
  match s.data.dropWhile isJsSpace with
  | '-' :: rest => (digitsVal rest).map (fun n => -(n : Int))
  | '+' :: rest => (digitsVal rest).map (fun n => (n : Int))
  | l => (digitsVal l).map (fun n => (n : Int))

/-- How a JavaScript number (or `NaN`) prints when concatenated into the
where-clause string. -/
def intLit : Option Int → String
  | none => "NaN"
  | some n => toString n

/-- Drop trailing `'0'` characters (used to print a parsed float the way
JavaScript prints it). -/
def dropTrailingZeros (l : List Char) : List Char :=
  (l.reverse.dropWhile (fun c => c = '0')).reverse

/-- `parseFloat(s)` followed by JavaScript number-to-string, for plain
decimal inputs; `"NaN"` when no digits are found. -/
def jsParseFloatLit (s : String) : String :=
  let l := s.data.dropWhile isJsSpace
  let signAndRest : Bool × List Char :=
    match l with
    | '-' :: rest => (true, rest)
    | '+' :: rest => (false, rest)
    | _ => (false, l)
  let ip := signAndRest.2.takeWhile Char.isDigit
  let rest1 := signAndRest.2.drop ip.length
  let fp :=
    match rest1 with
    | '.' :: r => r.takeWhile Char.isDigit
    | _ => []
  if ip.isEmpty && fp.isEmpty then "NaN"
  else
    let fpc := dropTrailingZeros fp
    let ipc := ip.dropWhile (fun c => c = '0')
    let ipStr := if ipc.isEmpty then "0" else String.mk ipc
    let core := ipStr ++ (if fpc.isEmpty then "" else "." ++ String.mk fpc)
    if signAndRest.1 && core ≠ "0" then "-" ++ core else core

/-- The `if (i) whereClause += ' and '` join of `getPrimaryKeyWhereClause`. -/
def joinWithAnd : List String → String
  | [] => ""
  | [x] => x
  | x :: rest => x ++ " and " ++ joinWithAnd rest

/-- The typed literal `whereValue` of one primary-key component in
`Xsql.getPrimaryKeyWhereClause`.  The date branch of the source is
`whereValue = Date(pksValues[i])`: calling `Date` without `new` returns
the current wall-clock time as a string and ignores its argument, so the
component value never reaches the literal; `now` is that ambient clock
string. -/
def pkLiteral (now : String) (col : Column) (v : String) : String :=
  let t := getColumnType col
  if t = "string" then mysqlEscapeString v
  else if t = "int" then intLit (jsParseInt v)
  else if t = "float" then jsParseFloatLit v
  else now

/-- Shallow embedding of `Xsql.getPrimaryKeyWhereClause`: `none` models
the source's `null` return (unknown table, or component count different
from the primary-key arity), on which every handler answers HTTP 400. -/
def getPrimaryKeyWhereClause (db : MetaDb) (now : String) (tableName : String)
    (pksValues : List String) : Option String :=
  match lookupTable db tableName with
  | none => none
  | some t =>
    if pksValues.length ≠ t.primaryKeys.length then none
    else some (joinWithAnd ((t.primaryKeys.zip pksValues).map
      (fun pv => pv.1.column_name ++ " = " ++ pkLiteral now pv.1 pv.2)))

/-- A catalog with one table whose single primary key is a DATE column. -/
def dateDb : MetaDb :=
  ⟨[("events", ⟨[⟨"event_date", "date"⟩], [⟨"event_date", "date"⟩], []⟩)]⟩

/-- One parsed item of a PostgREST `select` expression
(`lib/util/selectParser.helper.js`): a plain column (also `*` and
exclusions `-name`), or a relation with optional FK hint and its raw
inner select string. -/
inductive SelectItem where
  | column (name : String)
  | relation (name : String) (hint : Option String) (columns : String)

/-- `parseItem` from `lib/util/selectParser.helper.js`: an item with a
`(` and a trailing `)` is a relation (with `hint:name` split on the first
`:`), anything else a column. -/
def parseItem (item : String) : SelectItem :=
  match item.data.findIdx? (fun c => c = '(') with
  | some i =>
    if strEndsWith item ")" then
      let nameOrHint := jsTrim (String.mk (item.data.take i))
      let columns := String.mk ((item.data.drop (i + 1)).dropLast)
      match nameOrHint.data.findIdx? (fun c => c = ':') with
      | some j =>
        .relation (jsTrim (String.mk (nameOrHint.data.drop (j + 1))))
          (some (jsTrim (String.mk (nameOrHint.data.take j)))) columns
      | none => .relation nameOrHint none columns
    else .column item
  | none => .column item

/-- Character scan of `parseSelect`: parenthesis depth tracking, `,`
splits only at depth 0, buffers are trimmed and empty buffers dropped. -/
def parseSelectAux : List Char → Int → List Char → List SelectItem
  | [], _, buffer =>
    let b := jsTrim (String.mk buffer)
    if b = "" then [] else [parseItem b]
  | c :: rest, depth, buffer =>
    if c = '(' then parseSelectAux rest (depth + 1) (buffer ++ [c])
    else if c = ')' then parseSelectAux rest (depth - 1) (buffer ++ [c])
    else if c = ',' ∧ depth = 0 then
      let b := jsTrim (String.mk buffer)
      if b = "" then parseSelectAux rest depth []
      else parseItem b :: parseSelectAux rest depth []
    else parseSelectAux rest depth (buffer ++ [c])

/-- `parseSelect` from `lib/util/selectParser.helper.js` (an empty select
string yields no items). -/
def parseSelect (selectStr : String) : List SelectItem :=
  if selectStr = "" then [] else parseSelectAux selectStr.data 0 []

/-- Modelled from the spec: `dataHelp.findObjectInArrayByKey(key, value,
arr)` of `lib/util/data.helper.js` is not among the staged sources; per
§4.C ("Find a foreign key whose two endpoints are the current table and
the relation's target") it is modelled as the first array element whose
named key equals the value. -/
def findFkByReferencedTable (fks : List Fk) (target : String) : Option Fk :=
  fks.find? (fun fk => fk.referenced_table_name = target)

/-- The child-to-parent foreign key `getNestedQuery` looks up when no
hint is given (`fkToParent`). -/
def fkChildToParent (db : MetaDb) (parentTable childTable : String) : Option Fk :=
  match (lookupTable db childTable).map (fun t => t.foreignKeys) with
  | some cfks => findFkByReferencedTable cfks parentTable
  | none => none

/-- The parent-to-child foreign key `getNestedQuery` looks up when no
hint is given (`fkToChild`). -/
def fkParentToChild (db : MetaDb) (parentTable childTable : String) : Option Fk :=
  match (lookupTable db parentTable).map (fun t => t.foreignKeys) with
  | some pfks => findFkByReferencedTable pfks childTable
  | none => none

/-- `this.metaDb.tables[t].primaryKeys[0].column_name`; `none` models the
TypeError thrown when the table or its first primary key is missing. -/
def headPkName (db : MetaDb) (t : String) : Option String :=
  ((lookupTable db t).bind (fun tm => tm.primaryKeys.head?)).map (fun c => c.column_name)

/-- The explicit-items loop of `resolveSelectColumnsForJson`
(`lib/xsql.js`), with the compiler for nested relations passed in as
`nested`: a column found in the catalog contributes its quoted name and
`table.name`, an unknown column is skipped, a relation contributes its
quoted name and the compiled subquery. -/
def jsonColsCore (nested : String → String → String → Option String → Option String)
    (tableName : String) (tableCols : List Column) :
    List SelectItem → Option (List String)
  | [] => some []
  | item :: rest =>
    match item with
    | .column n =>
      match tableCols.find? (fun c => c.column_name = n) with
      | some _ =>
        (jsonColsCore nested tableName tableCols rest).map
          (fun tailCols => ("\'" ++ n ++ "\'") :: (tableName ++ "." ++ n) :: tailCols)
      | none => jsonColsCore nested tableName tableCols rest
    | .relation nm hint cols =>
      match nested tableName nm cols hint with
      | none => none
      | some sub =>
        (jsonColsCore nested tableName tableCols rest).map
          (fun tailCols => ("\'" ++ nm ++ "\'") :: sub :: tailCols)

/-- The body of `Xsql.resolveSelectColumnsForJson` (`lib/xsql.js`), with
the compiler for nested relations passed in as `nested`: star (or an
empty explicit list) expands every non-excluded catalog column into
`'name', table.name` pairs, then the explicit items are appended, and
everything is joined with `", "`. -/
def resolveJsonCore (nested : String → String → String → Option String → Option String)
    (db : MetaDb) (tableName selectStr : String) : Option String :=
  let parsed := parseSelect selectStr
  let hasStar := parsed.any (fun item =>
    match item with
    | .column n => n = "*"
    | _ => false)
  let excluded := parsed.filterMap (fun item =>
    match item with
    | .column n =>
      if !(n = "*") && strStartsWith n "-" then some (String.mk n.data.tail) else none
    | _ => none)
  let explicitItems := parsed.filter (fun item =>
    match item with
    | .column n => !(n = "*") && !(strStartsWith n "-")
    | .relation _ _ _ => true)
  match lookupTable db tableName with
  | none => none
  | some t =>
    let tableCols := t.columns
    let starCols :=
      if hasStar || explicitItems.isEmpty then
        (tableCols.filter (fun c => !(excluded.contains c.column_name))).flatMap
          (fun c => ["\'" ++ c.column_name ++ "\'", tableName ++ "." ++ c.column_name])
      else []
    let explicitColsOpt :=
      if explicitItems.isEmpty then some []
      else jsonColsCore nested tableName tableCols explicitItems
    match explicitColsOpt with
    | none => none
    | some ecols => some (String.intercalate ", " (starCols ++ ecols))

/-- Shallow embedding of `Xsql.getNestedQuery(parentTable, relationName,
selectStr, hint)` from `lib/xsql.js`.  `none` models a thrown TypeError
(missing table / empty primary-key list) or fuel exhaustion; the source
recursion always terminates because the inner select string shrinks, so
any sufficiently large fuel reproduces it. -/
def getNestedQueryF : Nat → MetaDb → String → String → String → Option String →
    Option String
  | 0, _, _, _, _, _ => none
  | fuel + 1, db, parentTable, relationName, selectStr, hint =>
    let childTable := relationName
    let fks := (lookupTable db childTable).map (fun t => t.foreignKeys)
    let parentFks := (lookupTable db parentTable).map (fun t => t.foreignKeys)
    let pair : Option Fk × Option Fk :=
      match hint with
      | some h =>
        let fkToChild :=
          match parentFks with
          | some pfks =>
            pfks.find? (fun fk => fk.column_name = h && fk.referenced_table_name = childTable)
          | none => none
        let fkToParent :=
          match fkToChild with
          | some _ => none
          | none =>
            match fks with
            | some cfks =>
              cfks.find? (fun fk => fk.column_name = h && fk.referenced_table_name = parentTable)
            | none => none
        (fkToParent, fkToChild)
      | none =>
        (fkChildToParent db parentTable childTable,
         fkParentToChild db parentTable childTable)
    let nested := fun p nm cols h => getNestedQueryF fuel db p nm cols h
    match pair.1 with
    | some fkToParent =>
      match resolveJsonCore nested db childTable selectStr with
      | none => none
      | some cols =>
        match headPkName db parentTable with
        | none => none
        | some pk =>
          some ("(SELECT CAST(COALESCE(JSON_ARRAYAGG(JSON_OBJECT(" ++ cols
            ++ ")), \'[]\') AS JSON) FROM " ++ childTable ++ " WHERE " ++ childTable
            ++ "." ++ fkToParent.column_name ++ " = " ++ parentTable ++ "." ++ pk ++ ")")
    | none =>
      match pair.2 with
      | some fkToChild =>
        match resolveJsonCore nested db childTable selectStr with
        | none => none
        | some cols =>
          match headPkName db childTable with
          | none => none
          | some pk =>
            some ("(SELECT JSON_OBJECT(" ++ cols ++ ") FROM " ++ childTable
              ++ " WHERE " ++ childTable ++ "." ++ pk ++ " = " ++ parentTable
              ++ "." ++ fkToChild.column_name ++ ")")
      | none => some "NULL"

/-- `Xsql.resolveSelectColumnsForJson` at a given recursion fuel: the
core body, compiling nested relations at one unit less fuel. -/
def resolveSelectColumnsForJsonF : Nat → MetaDb → String → String → Option String
  | 0, _, _, _ => none
  | fuel + 1, db, tableName, selectStr =>
    resolveJsonCore (fun p nm cols h => getNestedQueryF fuel db p nm cols h)
      db tableName selectStr

/-- A demonstration catalog: `orders` owns a foreign key to
`customers`. -/
def embDb : MetaDb :=
  ⟨[("customers",
     ⟨[⟨"customerNumber", "int"⟩, ⟨"customerName", "varchar"⟩],
      [⟨"customerNumber", "int"⟩], []⟩),
    ("orders",
     ⟨[⟨"orderNumber", "int"⟩, ⟨"status", "varchar"⟩, ⟨"customerNumber", "int"⟩],
      [⟨"orderNumber", "int"⟩],
      [⟨"customerNumber", "orders", "customers", "customerNumber", "int"⟩]⟩)]⟩

/-- A demonstration catalog with foreign keys in both directions between
`a` and `b`. -/
def bothDb : MetaDb :=
  ⟨[("a", ⟨[⟨"id", "int"⟩, ⟨"b_id", "int"⟩], [⟨"id", "int"⟩],
      [⟨"b_id", "a", "b", "id", "int"⟩]⟩),
    ("b", ⟨[⟨"id", "int"⟩, ⟨"a_id", "int"⟩], [⟨"id", "int"⟩],
      [⟨"a_id", "b", "a", "id", "int"⟩]⟩)]⟩

/-- One parameter of a cached routine (`iterateToCacheProcedures`). -/
structure RoutineParam where
  name : String
  dtype : String
  mode : String
  pos : Nat

/-- One cached routine: `metaDb.routines[name]` with its kind
(`PROCEDURE` / `FUNCTION`) and ordered parameters. -/
structure Routine where
  rtype : String
  params : List RoutineParam

/-- What `Xapi.callProcedure` decides: a 404 for an unknown routine, or
the statement text with its positional parameters (`??` is the mysql2
identifier placeholder, bound to the routine name at the head of the
parameter list). -/
inductive RpcPlan where
  | notFound (status : Nat)
  | run (query : String) (queryParams : List JsValue)

/-- Shallow embedding of `Xapi.callProcedure` (`lib/xapi.js`): look up the
routine; bind one `?` per declared parameter in declared order, a missing
body input binding SQL NULL; a procedure is emitted as `CALL ??(…)` and
anything else as `SELECT ??(…)`. -/
def callProcedurePlan (routines : List (String × Routine)) (procName : String)
    (body : List (String × JsValue)) : RpcPlan :=
  match (routines.find? (fun kv => kv.1 = procName)).map (fun kv => kv.2) with
  | none => .notFound 404
  | some routine =>
    let params := routine.params.map (fun p =>
      ((body.find? (fun kv => kv.1 = p.name)).map (fun kv => kv.2)).getD JsValue.null)
    let placeHolders := routine.params.map (fun _ => "?")
    let query :=
      if routine.rtype = "PROCEDURE" then
        "CALL ??(" ++ String.intercalate "," placeHolders ++ ")"
      else
        "SELECT ??(" ++ String.intercalate "," placeHolders ++ ")"
    .run query (JsValue.str procName :: params)

/-- A demonstration routine catalog: one function, one procedure. -/
def demoRoutines : List (String × Routine) :=
  [("add_one", ⟨"FUNCTION", [⟨"x", "int", "IN", 1⟩]⟩),
   ("add_user", ⟨"PROCEDURE", [⟨"p_name", "varchar", "IN", 1⟩, ⟨"p_age", "int", "IN", 2⟩]⟩)]

/-- The per-operation policy lists of one table in the in-memory RLS
index (`this.rlsPolicies[tableName]`), each entry a `using_expression`
in load order. -/
structure TablePolicies where
  selectPolicies : List String
  insertPolicies : List String
  updatePolicies : List String
  deletePolicies : List String

/-- The in-memory RLS index built by `loadRlsPolicies`. -/
abbrev RlsIndex := List (String × TablePolicies)

/-- `this.rlsPolicies[tableName][operation] || []`. -/
def policiesFor (tp : TablePolicies) (op : String) : List String :=
  if op = "SELECT" then tp.selectPolicies
  else if op = "INSERT" then tp.insertPolicies
  else if op = "UPDATE" then tp.updatePolicies
  else if op = "DELETE" then tp.deletePolicies
  else []

/-- Shallow embedding of `Xsql.getPolicyWhereClause` (`lib/xsql.js`):
`none` when the table has no entry or the operation's list is empty,
otherwise every `using_expression` parenthesized and AND-joined. -/
def getPolicyWhereClause (rls : RlsIndex) (tableName op : String) : Option String :=
  match (rls.find? (fun kv => kv.1 = tableName)).map (fun kv => kv.2) with
  | none => none
  | some tp =>
    let policies := policiesFor tp op
    if policies.length = 0 then none
    else some (String.intercalate " AND " (policies.map (fun p => "(" ++ p ++ ")")))

/-- One attempted match of the regex `/\s*where\s+/i` anchored at the
head of the list: greedy whitespace, the five letters of `where`
case-insensitively, then at least one whitespace; returns the remainder
after the match. -/
def matchWhereToken (l : List Char) : Option (List Char) :=
  let ws := l.takeWhile isJsSpace
  let rest := l.drop ws.length
  match rest with
  | w :: h :: e1 :: r :: e2 :: rest2 =>
    if (w = 'w' || w = 'W') && (h = 'h' || h = 'H') && (e1 = 'e' || e1 = 'E') &&
        (r = 'r' || r = 'R') && (e2 = 'e' || e2 = 'E') then
      let ws2 := rest2.takeWhile isJsSpace
      if ws2.isEmpty then none else some (rest2.drop ws2.length)
    else none
  | _ => none

/-- Leftmost-match replacement for `.replace(/\s*where\s+/i, repl)`:
the first position where the token matches is replaced, everything else
is kept. -/
def replaceFirstWhereAux (repl : List Char) : List Char → List Char
  | [] => []
  | c :: cs =>
    match matchWhereToken (c :: cs) with
    | some rest => repl ++ rest
    | none => c :: replaceFirstWhereAux repl cs

/-- JavaScript `s.replace(/\s*where\s+/i, repl)` (also matches the
uppercase ` WHERE ` spelling used by the delete handler). -/
def jsReplaceWhere (s repl : String) : String :=
  String.mk (replaceFirstWhereAux repl.data s.data)

/-- The policy-injection step shared by the `list`, `patch` and bulk
`delete` handlers (`lib/xapi.js`): with a policy present, a non-empty
user WHERE fragment has its leading where-keyword rewritten to
`<word>(<policy>) AND `, an empty fragment becomes `<word><policy>`;
without a policy the fragment is unchanged.  `whereWord` is ` where `
for list/patch and ` WHERE ` for delete. -/
def injectPolicyClause (policy : Option String) (whereWord userWhere : String) : String :=
  match policy with
  | some r =>
    if userWhere ≠ "" then jsReplaceWhere userWhere (whereWord ++ "(" ++ r ++ ") AND ")
    else whereWord ++ r
  | none => userWhere

/-- The statements emitted by `Xapi.list`: the optional
`Prefer: count=exact` count query and the main query; `userWhere` is the
fragment `getWhereClause` produced from the request filters (empty, or
` where ` followed by the conditions). -/
def listHandlerQueries (rls : RlsIndex) (tableName cols userWhere orderBy : String)
    (countRequested : Bool) : List String :=
  let whereQ := injectPolicyClause (getPolicyWhereClause rls tableName "SELECT")
    " where " userWhere
  (if countRequested then ["SELECT count(1) as no_of_rows FROM ?? " ++ whereQ] else [])
    ++ ["select " ++ cols ++ " from ?? " ++ whereQ ++ orderBy ++ " limit ?,? "]

/-- The statement emitted by `Xapi.read` (given the primary-key clause). -/
def readHandlerQuery (rls : RlsIndex) (tableName pkClause : String) : String :=
  "select * from ?? where " ++
    (match getPolicyWhereClause rls tableName "SELECT" with
     | some r => "(" ++ r ++ ") AND " ++ pkClause
     | none => pkClause) ++ " LIMIT 1"

/-- The `keys[i] + ' = ? '` SET-clause loop shared by `update` and
`patch`. -/
def buildSetClause : List String → String
  | [] => ""
  | [k] => k ++ " = ? "
  | k :: rest => k ++ " = ? " ++ ", " ++ buildSetClause rest

/-- The statement emitted by `Xapi.update` (PUT by id). -/
def updateHandlerQuery (rls : RlsIndex) (tableName : String) (keys : List String)
    (pkClause : String) : String :=
  "UPDATE ?? SET " ++ buildSetClause keys ++ " where " ++
    (match getPolicyWhereClause rls tableName "UPDATE" with
     | some r => "(" ++ r ++ ") AND " ++ pkClause
     | none => pkClause)

/-- The statements emitted by `Xapi.patch`: the optional
return-representation PK pre-select and the UPDATE itself, both under the
policy-injected WHERE fragment. -/
def patchHandlerQueries (rls : RlsIndex) (tableName : String) (keys : List String)
    (userWhere : String) (returnRep : Bool) (pkCols : List String) : List String :=
  let whereQ := injectPolicyClause (getPolicyWhereClause rls tableName "UPDATE")
    " where " userWhere
  (if returnRep && !pkCols.isEmpty then
    ["SELECT " ++ String.intercalate "," (pkCols.map (fun _ => "??")) ++ " FROM ?? " ++ whereQ]
   else []) ++
  ["UPDATE ?? SET " ++ buildSetClause keys ++ whereQ]

/-- The statement emitted by `Xapi.delete`: by id when a primary-key
clause is supplied, otherwise the bulk form under the user filter. -/
def deleteHandlerQuery (rls : RlsIndex) (tableName : String) (pkClause : Option String)
    (userWhere : String) : String :=
  "DELETE FROM ?? " ++
    match pkClause with
    | some clause =>
      (match getPolicyWhereClause rls tableName "DELETE" with
       | some r => "WHERE (" ++ r ++ ") AND " ++ clause
       | none => "WHERE " ++ clause)
    | none => injectPolicyClause (getPolicyWhereClause rls tableName "DELETE")
        " WHERE " userWhere

/-- The statements emitted by `Xapi.nestedList`: optional count query and
main query over the child table; the WHERE fragment is the FK predicate,
then the user conditions (empty or ` and ` followed by conditions), then
` and (<policy>)` when a SELECT policy exists. -/
def nestedListQueries (rls : RlsIndex) (childTable cols fkWhere userAnd orderBy : String)
    (countRequested : Bool) : List String :=
  let whereQ :=
    match getPolicyWhereClause rls childTable "SELECT" with
    | some r => fkWhere ++ userAnd ++ " and (" ++ r ++ ")"
    | none => fkWhere ++ userAnd
  (if countRequested then ["SELECT count(1) as no_of_rows FROM ?? WHERE " ++ whereQ] else [])
    ++ ["select " ++ cols ++ " from ?? where " ++ whereQ ++ orderBy ++ " limit ?,? "]

/-- The statement emitted by `Xapi.count`: a bare
`select count(1) as no_of_rows from ??` with the table name as its only
parameter — no policy clause is consulted. -/
def countHandlerQuery (tableName : String) : Stmt :=
  ⟨"select count(1) as no_of_rows from ??", [.str tableName]⟩

/-- An RLS index with one enabled SELECT policy on `rls_test_data`. -/
def demoRls : RlsIndex :=
  [("rls_test_data", ⟨["owner_role = @request_jwt_claim_role"], [], [], []⟩)]

/-- An RLS index with one enabled ALL policy on `rls_test_data`, fanned
out to the four operations as `loadRlsPolicies` does. -/
def fullRls : RlsIndex :=
  [("rls_test_data",
    ⟨["owner_role = @request_jwt_claim_role"],
     ["owner_role = @request_jwt_claim_role"],
     ["owner_role = @request_jwt_claim_role"],
     ["owner_role = @request_jwt_claim_role"]⟩)]

/-- `r` occurs contiguously in `s`. -/
def containsData (s r : String) : Prop :=
  ∃ pre post : List Char, s.data = pre ++ r.data ++ post

end MyRest

namespace MyRest

/-- C2: with a non-empty claim context the executor dispatches nothing on
the pool; it runs exactly two statements on one borrowed connection, the
`SET` statement first and the main statement second; the `SET` statement
carries one `@request_jwt_claim_<key> = ?` assignment and one positional
parameter per claim.  With no context (or an empty one) the main statement
is dispatched directly on the pool and no `SET` assignment is built. -/
theorem exec_session_context_protocol (query : String) (params : List JsValue) :
    (∀ ctx : List (String × JsValue), ctx ≠ [] →
      (execPlan query params (some ctx)).poolStatements = [] ∧
      (execPlan query params (some ctx)).setAssignments =
        ctx.map (fun kv => setAssignment kv.1) ∧
      (execPlan query params (some ctx)).setAssignments.length = ctx.length ∧
      (execPlan query params (some ctx)).setParams.length = ctx.length ∧
      (execPlan query params (some ctx)).connStatements =
        [⟨"SET " ++ String.intercalate ", " (ctx.map (fun kv => setAssignment kv.1)),
          ctx.map (fun kv => bindClaimValue kv.2)⟩, ⟨query, params⟩]) ∧
    (execPlan query params none).connStatements = [] ∧
    (execPlan query params none).setAssignments = [] ∧
    (execPlan query params none).poolStatements = [⟨query, params⟩] ∧
    (execPlan query params (some [])).connStatements = [] ∧
    (execPlan query params (some [])).setAssignments = [] ∧
    (execPlan query params (some [])).poolStatements = [⟨query, params⟩] := by
  refine ⟨fun ctx hctx => ?_, rfl, rfl, rfl, rfl, rfl, rfl⟩
  have hlen : ctx.length ≠ 0 := fun h => hctx (List.length_eq_zero.mp h)
  simp [execPlan, hlen, Nat.pos_of_ne_zero hlen]

/-- Closed witness for `exec_session_context_protocol` at a one-claim
context. -/
theorem exec_session_context_protocol_witness :
    (execPlan "select 1" [] (some [("role", JsValue.str "W")])).setAssignments =
      ["@request_jwt_claim_role = ?"] ∧
    (execPlan "select 1" [] none).poolStatements = [⟨"select 1", []⟩] := by
  have h := exec_session_context_protocol "select 1" []
  refine ⟨?_, h.2.2.2.1⟩
  have h1 := (h.1 [("role", JsValue.str "W")] (by simp)).2.1
  rw [h1]
  rfl

/-- C9: a claim whose value is `null` has JavaScript type `"object"`, so
the executor serializes it with `JSON.stringify` and binds the
four-character text `"null"` (a string parameter, not SQL NULL); in a
context every claim value is bound through exactly this serialization. -/
theorem null_claim_bound_as_json_text (query : String) (params : List JsValue) :
    bindClaimValue JsValue.null = JsValue.str "null" ∧
    (jsonStringify JsValue.null).length = 4 ∧
    (∀ ctx : List (String × JsValue),
      (execPlan query params (some ctx)).setParams =
        ctx.map (fun kv => bindClaimValue kv.2)) := by
  refine ⟨rfl, rfl, fun ctx => ?_⟩
  by_cases h : ctx.length = 0
  · simp [execPlan, h, List.length_eq_zero.mp h]
  · simp [execPlan, h, Nat.pos_of_ne_zero h]

/-- C3 counterexample: with `_size = 150` (and no `limit`) the code leaves
the default limit 20, while the claim's "cap of 100" resolution yields
limit 100. -/
theorem pagination_size_cap_counterexample :
    getLimitClause ⟨none, some 150, none, none⟩ = (0, 20) ∧
    claimLimitResolve ⟨none, some 150, none, none⟩ = (0, 100) ∧
    getLimitClause ⟨none, some 150, none, none⟩ ≠
      claimLimitResolve ⟨none, some 150, none, none⟩ := by
  refine ⟨rfl, rfl, ?_⟩
  decide

/-- C3 amended: limit is taken from `limit` when present, otherwise from
`_size` only when `_size < 100` (a `_size` of 100 or more falls back to the
default 20), otherwise 20; offset is taken from `offset` when present,
otherwise from a positive `_p` as `(_p - 1) * limit + 1` (a non-positive
`_p` falls back to the default 0), otherwise 0. -/
theorem pagination_resolution_amended (q : ReqParams) :
    (∀ l, q.limit = some l → (getLimitClause q).2 = l) ∧
    (q.limit = none → ∀ s, q.size = some s → s < 100 → (getLimitClause q).2 = s) ∧
    (q.limit = none → ∀ s, q.size = some s → 100 ≤ s → (getLimitClause q).2 = 20) ∧
    (q.limit = none → q.size = none → (getLimitClause q).2 = 20) ∧
    (∀ o, q.offset = some o → (getLimitClause q).1 = o) ∧
    (q.offset = none → ∀ pv, q.p = some pv → 0 < pv →
      (getLimitClause q).1 = (pv - 1) * (getLimitClause q).2 + 1) ∧
    (q.offset = none → ∀ pv, q.p = some pv → pv ≤ 0 → (getLimitClause q).1 = 0) ∧
    (q.offset = none → q.p = none → (getLimitClause q).1 = 0) := by
  obtain ⟨lim, sz, off, pg⟩ := q
  refine ⟨?_, ?_, ?_, ?_, ?_, ?_, ?_, ?_⟩ <;>
    rcases lim with _ | l <;> rcases sz with _ | s <;>
    rcases off with _ | o <;> rcases pg with _ | pv <;>
    intros <;> simp_all [getLimitClause]

/-- Closed witness for `pagination_resolution_amended`: `_size = 50` and
`_p = 2` resolve to limit 50 and offset `(2-1)*50+1 = 51`. -/
theorem pagination_resolution_amended_witness :
    (getLimitClause ⟨none, some 50, none, some 2⟩).2 = 50 ∧
    (getLimitClause ⟨none, some 50, none, some 2⟩).1 = 51 := by
  have h := pagination_resolution_amended ⟨none, some 50, none, some 2⟩
  have h2 : (getLimitClause ⟨none, some 50, none, some 2⟩).2 = 50 :=
    h.2.1 rfl 50 rfl (by norm_num)
  have h6 := h.2.2.2.2.2.1 rfl 2 rfl (by norm_num)
  rw [h2] at h6
  exact ⟨h2, by rw [h6]; norm_num⟩

/-- C4: on a DATE-typed primary-key component the source evaluates
`Date(pksValues[i])` without `new`, which returns the current wall-clock
string and ignores its argument — so the emitted `col = <literal>`
conjunct is the same for any id component (first conjunct), and the
literal is the raw clock string, not a value coerced from the id (second
conjunct, at a concrete clock). -/
theorem date_pk_literal_ignores_id :
    (∀ now v : String, pkLiteral now ⟨"event_date", "date"⟩ v = now) ∧
    getPrimaryKeyWhereClause dateDb "Sat Oct 11 2026 00:00:00 GMT+0000" "events"
        ["2020-01-01"] =
      some "event_date = Sat Oct 11 2026 00:00:00 GMT+0000" ∧
    getPrimaryKeyWhereClause dateDb "Sat Oct 11 2026 00:00:00 GMT+0000" "events"
        ["1999-12-31"] =
      some "event_date = Sat Oct 11 2026 00:00:00 GMT+0000" := by
  have hct : getColumnType ⟨"event_date", "date"⟩ = "date" := rfl
  exact ⟨fun now v => by simp [pkLiteral, hct], rfl, rfl⟩

/-- C5: under `Accept: application/vnd.pgrst.object+json` the `list`
handler answers 200 with the bare object iff the result has exactly one
row, and 406 in every other case. -/
theorem singular_object_contract (results : List JsValue) :
    ((shapeListResponse true results).1 = 200 ↔ results.length = 1) ∧
    ((shapeListResponse true results).1 = 406 ↔ results.length ≠ 1) ∧
    (∀ r, results = [r] → shapeListResponse true results = (200, r)) := by
  rcases results with _ | ⟨r, _ | ⟨r2, rest⟩⟩ <;>
    simp [shapeListResponse] <;> omega

/-- Closed witness for `singular_object_contract` at a one-row result. -/
theorem singular_object_contract_witness :
    shapeListResponse true [JsValue.num 7] = (200, JsValue.num 7) :=
  (singular_object_contract [JsValue.num 7]).2.2 (JsValue.num 7) rfl

/-- C7 counterexample: the parser maps `neq` to `!=`, not to `<>`; the
filter `id=neq.5` produces the predicate with operator `!=`. -/
theorem neq_operator_counterexample :
    parseCondition "id" "neq.5" =
      some ⟨"id", "!=", CondValue.scalar (JsValue.str "5")⟩ ∧
    getComparisonOperator "neq" = some "!=" ∧
    getComparisonOperator "neq" ≠ some "<>" := by
  refine ⟨rfl, rfl, ?_⟩
  decide

/-- C7 amended: `eq` maps to `=`, `neq` to `!=`, `gt` to `>`, `gte` to
`>=`, `lt` to `<`, `lte` to `<=`; and a parameter whose operator token
(the text before the first dot) is unrecognized produces no predicate at
all. -/
theorem comparison_operator_mapping_amended :
    getComparisonOperator "eq" = some "=" ∧
    getComparisonOperator "neq" = some "!=" ∧
    getComparisonOperator "gt" = some ">" ∧
    getComparisonOperator "gte" = some ">=" ∧
    getComparisonOperator "lt" = some "<" ∧
    getComparisonOperator "lte" = some "<=" ∧
    (∀ key value : String,
      getComparisonOperator ((jsSplit "." value).headD "") = none →
      parseCondition key value = none) := by
  refine ⟨rfl, rfl, rfl, rfl, rfl, rfl, fun key value h => ?_⟩
  unfold parseCondition
  by_cases hl : (jsSplit "." value).length < 2
  · simp [hl]
  · simp [hl, List.headD] at h ⊢
    simp [h]

/-- Closed witness for `comparison_operator_mapping_amended`: the unknown
operator token `foo` yields no predicate. -/
theorem comparison_operator_mapping_amended_witness :
    parseCondition "id" "foo.5" = none :=
  comparison_operator_mapping_amended.2.2.2.2.2.2 "id" "foo.5" rfl

/-- Unfolding of `resolveSelectColumnsForJsonF` at successor fuel. -/
theorem resolveSelectColumnsForJsonF_succ (fuel : Nat) (db : MetaDb) (t s : String) :
    resolveSelectColumnsForJsonF (fuel + 1) db t s =
      resolveJsonCore (fun p nm cols h => getNestedQueryF fuel db p nm cols h) db t s :=
  rfl

/-- C6: for a relation node without a hint — when the child table owns a
foreign key to the parent, the compiler emits the 1:N
`JSON_ARRAYAGG`/`COALESCE` correlated subquery keyed
`child.fk = parent.pk`; when only the parent owns a foreign key to the
child, it emits the N:1 `JSON_OBJECT` subquery keyed
`child.pk = parent.fk`; when no foreign key connects the two tables, it
emits the literal `NULL` subquery. -/
theorem nested_embedding_shapes (fuel : Nat) (db : MetaDb) (parent rel sel : String) :
    (∀ fk cols pk,
      fkChildToParent db parent rel = some fk →
      resolveSelectColumnsForJsonF (fuel + 1) db rel sel = some cols →
      headPkName db parent = some pk →
      getNestedQueryF (fuel + 1) db parent rel sel none =
        some ("(SELECT CAST(COALESCE(JSON_ARRAYAGG(JSON_OBJECT(" ++ cols
          ++ ")), \'[]\') AS JSON) FROM " ++ rel ++ " WHERE " ++ rel ++ "."
          ++ fk.column_name ++ " = " ++ parent ++ "." ++ pk ++ ")")) ∧
    (∀ fk cols pk,
      fkChildToParent db parent rel = none →
      fkParentToChild db parent rel = some fk →
      resolveSelectColumnsForJsonF (fuel + 1) db rel sel = some cols →
      headPkName db rel = some pk →
      getNestedQueryF (fuel + 1) db parent rel sel none =
        some ("(SELECT JSON_OBJECT(" ++ cols ++ ") FROM " ++ rel ++ " WHERE " ++ rel
          ++ "." ++ pk ++ " = " ++ parent ++ "." ++ fk.column_name ++ ")")) ∧
    (fkChildToParent db parent rel = none →
      fkParentToChild db parent rel = none →
      getNestedQueryF (fuel + 1) db parent rel sel none = some "NULL") := by
  refine ⟨fun fk cols pk h1 h2 h3 => ?_, fun fk cols pk h0 h1 h2 h3 => ?_,
    fun h1 h2 => ?_⟩ <;>
    simp [getNestedQueryF, ← resolveSelectColumnsForJsonF_succ, *]

/-- Closed witness for `nested_embedding_shapes`: the `orders` 1:N
embedding under `customers`. -/
theorem nested_embedding_shapes_witness :
    getNestedQueryF 2 embDb "customers" "orders" "orderNumber,status" none =
      some ("(SELECT CAST(COALESCE(JSON_ARRAYAGG(JSON_OBJECT("
        ++ "\'orderNumber\', orders.orderNumber, \'status\', orders.status"
        ++ ")), \'[]\') AS JSON) FROM " ++ "orders" ++ " WHERE " ++ "orders" ++ "."
        ++ "customerNumber" ++ " = " ++ "customers" ++ "." ++ "customerNumber" ++ ")") :=
  (nested_embedding_shapes 1 embDb "customers" "orders" "orderNumber,status").1
    ⟨"customerNumber", "orders", "customers", "customerNumber", "int"⟩
    "\'orderNumber\', orders.orderNumber, \'status\', orders.status"
    "customerNumber" rfl rfl rfl

/-- C10: without an FK hint, when foreign keys exist in both directions
between the two tables the compiler deterministically picks the 1:N
embedding (the child-owned key is consulted first), and the N:1 embedding
is chosen only when no child-to-parent foreign key exists. -/
theorem ambiguous_fk_prefers_child_side (fuel : Nat) (db : MetaDb)
    (parent rel sel : String) :
    (∀ fkC fkP cols pk,
      fkChildToParent db parent rel = some fkC →
      fkParentToChild db parent rel = some fkP →
      resolveSelectColumnsForJsonF (fuel + 1) db rel sel = some cols →
      headPkName db parent = some pk →
      getNestedQueryF (fuel + 1) db parent rel sel none =
        some ("(SELECT CAST(COALESCE(JSON_ARRAYAGG(JSON_OBJECT(" ++ cols
          ++ ")), \'[]\') AS JSON) FROM " ++ rel ++ " WHERE " ++ rel ++ "."
          ++ fkC.column_name ++ " = " ++ parent ++ "." ++ pk ++ ")")) ∧
    (∀ fkP cols pk,
      fkChildToParent db parent rel = none →
      fkParentToChild db parent rel = some fkP →
      resolveSelectColumnsForJsonF (fuel + 1) db rel sel = some cols →
      headPkName db rel = some pk →
      getNestedQueryF (fuel + 1) db parent rel sel none =
        some ("(SELECT JSON_OBJECT(" ++ cols ++ ") FROM " ++ rel ++ " WHERE " ++ rel
          ++ "." ++ pk ++ " = " ++ parent ++ "." ++ fkP.column_name ++ ")")) := by
  refine ⟨fun fkC fkP cols pk h1 h2 h3 h4 => ?_,
    fun fkP cols pk h0 h1 h2 h3 => ?_⟩ <;>
    simp [getNestedQueryF, ← resolveSelectColumnsForJsonF_succ, *]

/-- Closed witness for `ambiguous_fk_prefers_child_side`: with keys in
both directions between `a` and `b`, the 1:N shape is emitted. -/
theorem ambiguous_fk_prefers_child_side_witness :
    getNestedQueryF 2 bothDb "a" "b" "id" none =
      some ("(SELECT CAST(COALESCE(JSON_ARRAYAGG(JSON_OBJECT(" ++ "\'id\', b.id"
        ++ ")), \'[]\') AS JSON) FROM " ++ "b" ++ " WHERE " ++ "b" ++ "."
        ++ "a_id" ++ " = " ++ "a" ++ "." ++ "id" ++ ")") :=
  (ambiguous_fk_prefers_child_side 1 bothDb "a" "b" "id").1
    ⟨"a_id", "b", "a", "id", "int"⟩ ⟨"b_id", "a", "b", "id", "int"⟩
    "\'id\', b.id" "id" rfl rfl rfl rfl

/-- A list is a Boolean prefix of itself followed by anything. -/
theorem listIsPrefixOf_append_right (sub post : List Char) :
    listIsPrefixOf sub (sub ++ post) = true := by
  induction sub with
  | nil => rfl
  | cons c cs ih => simp [listIsPrefixOf, ih]

/-- The Boolean substring test accepts any explicit decomposition. -/
theorem listContainsSub_append_mid (sub pre post : List Char) :
    listContainsSub sub (pre ++ (sub ++ post)) = true := by
  induction pre with
  | nil =>
    cases sub with
    | nil =>
      cases post with
      | nil => rfl
      | cons c cs => simp [listContainsSub, listIsPrefixOf]
    | cons s ss => simp [listContainsSub, listIsPrefixOf, listIsPrefixOf_append_right]
  | cons p ps ih => simp [listContainsSub, ih]

/-- From a decomposition witness to the Boolean substring test. -/
theorem strContains_of_containsData (s r : String) (h : containsData s r) :
    strContains s r = true := by
  obtain ⟨pre, post, hd⟩ := h
  rw [strContains, hd, List.append_assoc]
  exact listContainsSub_append_mid r.data pre post

/-- Containment is preserved by prepending text. -/
theorem containsData_appendL (a s r : String) (h : containsData s r) :
    containsData (a ++ s) r := by
  obtain ⟨pre, post, hd⟩ := h
  exact ⟨a.data ++ pre, post, by simp [String.data_append, hd]⟩

/-- Containment is preserved by appending text. -/
theorem containsData_appendR (s b r : String) (h : containsData s r) :
    containsData (s ++ b) r := by
  obtain ⟨pre, post, hd⟩ := h
  exact ⟨pre, post ++ b.data, by simp [String.data_append, hd]⟩

/-- The parenthesized policy prefix of the single-row WHERE clauses. -/
theorem containsData_paren_and (r p : String) :
    containsData ("(" ++ r ++ ") AND " ++ p) r :=
  ⟨"(".data, ") AND ".data ++ p.data, by simp [String.data_append]⟩

/-- A string starting with ` where ` is not empty. -/
theorem where_prefix_ne_empty (c : String) : " where " ++ c ≠ "" := by
  intro h
  have hd := congrArg String.data h
  simp [String.data_append, show ("" : String).data = [] from rfl] at hd

/-- A string starting with ` WHERE ` is not empty. -/
theorem upper_where_prefix_ne_empty (c : String) : " WHERE " ++ c ≠ "" := by
  intro h
  have hd := congrArg String.data h
  simp [String.data_append, show ("" : String).data = [] from rfl] at hd

/-- `/\s*where\s+/i` replacement on a fragment built as ` where ` plus
conditions: the match consumes the keyword and following whitespace, so
the result is the replacement followed by the conditions (with their
leading whitespace stripped by the greedy `\s+`). -/
theorem jsReplaceWhere_lower (c repl : String) :
    jsReplaceWhere (" where " ++ c) repl =
      repl ++ String.mk (c.data.drop (c.data.takeWhile isJsSpace).length) := rfl

/-- `/\s*where\s+/i` replacement on the uppercase ` WHERE ` spelling. -/
theorem jsReplaceWhere_upper (c repl : String) :
    jsReplaceWhere (" WHERE " ++ c) repl =
      repl ++ String.mk (c.data.drop (c.data.takeWhile isJsSpace).length) := rfl

/-- Whatever the user filter fragment looks like (empty, or a lower- or
upper-case where-prefix as `getWhereClause` produces), the injected WHERE
fragment contains the composed policy text. -/
theorem injectPolicyClause_contains (r ww uw : String)
    (hw : uw = "" ∨ (∃ c, uw = " where " ++ c) ∨ (∃ c, uw = " WHERE " ++ c)) :
    containsData (injectPolicyClause (some r) ww uw) r := by
  have hbase : containsData (ww ++ "(" ++ r ++ ") AND ") r :=
    ⟨ww.data ++ "(".data, ") AND ".data, by simp [String.data_append]⟩
  rcases hw with rfl | ⟨c, rfl⟩ | ⟨c, rfl⟩
  · simp only [injectPolicyClause, ne_eq, not_true_eq_false, if_false, ite_false,
      reduceIte]
    exact ⟨ww.data, [], by simp [String.data_append]⟩
  · have hne := where_prefix_ne_empty c
    simp only [injectPolicyClause, ne_eq, hne, not_false_eq_true, if_true, ite_true,
      reduceIte, jsReplaceWhere_lower]
    exact containsData_appendR _ _ _ hbase
  · have hne := upper_where_prefix_ne_empty c
    simp only [injectPolicyClause, ne_eq, hne, not_false_eq_true, if_true, ite_true,
      reduceIte, jsReplaceWhere_upper]
    exact containsData_appendR _ _ _ hbase

/-- C8 counterexample: for a catalog function the emitted statement is
`SELECT ??(…)` with no `AS result` alias (the routine-name parameter is
bound to the `??` identifier placeholder). -/
theorem rpc_function_alias_counterexample :
    callProcedurePlan demoRoutines "add_one" [] =
      RpcPlan.run "SELECT ??(?)" [JsValue.str "add_one", JsValue.null] ∧
    strEndsWith "SELECT ??(?)" " AS result" = false := by
  exact ⟨rfl, rfl⟩

/-- C8 amended: an unknown routine yields 404; otherwise a procedure is
emitted as `CALL ??(?,…)` and a function as `SELECT ??(?,…)` (without an
alias), with one `?` per declared parameter, the parameters bound in
declared order after the routine name, and every missing input bound as
SQL NULL. -/
theorem rpc_plan_amended (routines : List (String × Routine)) (procName : String)
    (body : List (String × JsValue)) :
    (routines.find? (fun kv => kv.1 = procName) = none →
      callProcedurePlan routines procName body = .notFound 404) ∧
    (∀ nm r, routines.find? (fun kv => kv.1 = procName) = some (nm, r) →
      callProcedurePlan routines procName body =
        .run ((if r.rtype = "PROCEDURE" then "CALL ??(" else "SELECT ??(")
            ++ String.intercalate "," (List.replicate r.params.length "?") ++ ")")
          (JsValue.str procName ::
            r.params.map (fun p =>
              ((body.find? (fun kv => kv.1 = p.name)).map (fun kv => kv.2)).getD
                JsValue.null))) := by
  constructor
  · intro h
    simp [callProcedurePlan, h]
  · intro nm r h
    by_cases hr : r.rtype = "PROCEDURE" <;>
      simp [callProcedurePlan, h, hr, List.map_const']

/-- Closed witness for `rpc_plan_amended`: the procedure `add_user` with
only `p_age` supplied binds NULL for `p_name`. -/
theorem rpc_plan_amended_witness :
    callProcedurePlan demoRoutines "add_user" [("p_age", JsValue.num 30)] =
      RpcPlan.run "CALL ??(?,?)"
        [JsValue.str "add_user", JsValue.null, JsValue.num 30] :=
  (rpc_plan_amended demoRoutines "add_user" [("p_age", JsValue.num 30)]).2 "add_user"
    ⟨"PROCEDURE", [⟨"p_name", "varchar", "IN", 1⟩, ⟨"p_age", "int", "IN", 2⟩]⟩ rfl

/-- C1 counterexample: with an enabled SELECT policy on `rls_test_data`,
the composed policy predicate is non-trivial, yet the statement emitted
by the `count` handler does not contain it (nor even the policy's column
text) — the count path bypasses the RLS engine. -/
theorem count_bypasses_policy_counterexample :
    getPolicyWhereClause demoRls "rls_test_data" "SELECT" =
      some "(owner_role = @request_jwt_claim_role)" ∧
    strContains (countHandlerQuery "rls_test_data").text
      "(owner_role = @request_jwt_claim_role)" = false ∧
    strContains (countHandlerQuery "rls_test_data").text "owner_role" = false := by
  refine ⟨rfl, by decide, by decide⟩

/-- C1 amended: for a table with enabled policies, the statements emitted
by the list (main and count), read, update, patch (pre-select and main),
delete (by id and bulk) and relational (main and count) handlers all
contain the composed policy predicate of the corresponding operation;
the count, exists, create, groupby and aggregate handlers emit their
statements without consulting the policy engine. -/
theorem policy_injection_amended
    (rls : RlsIndex) (t cols orderBy pkClause fkWhere userAnd : String)
    (keys pkCols : List String) (countReq returnRep : Bool)
    (userWhere userWhereU userWhereD : String) (rSel rUpd rDel : String)
    (hsel : getPolicyWhereClause rls t "SELECT" = some rSel)
    (hupd : getPolicyWhereClause rls t "UPDATE" = some rUpd)
    (hdel : getPolicyWhereClause rls t "DELETE" = some rDel)
    (hw : userWhere = "" ∨ ∃ c, userWhere = " where " ++ c)
    (hwU : userWhereU = "" ∨ ∃ c, userWhereU = " where " ++ c)
    (hwD : userWhereD = "" ∨ ∃ c, userWhereD = " WHERE " ++ c) :
    (∀ q ∈ listHandlerQueries rls t cols userWhere orderBy countReq,
      strContains q rSel = true) ∧
    strContains (readHandlerQuery rls t pkClause) rSel = true ∧
    strContains (updateHandlerQuery rls t keys pkClause) rUpd = true ∧
    (∀ q ∈ patchHandlerQueries rls t keys userWhereU returnRep pkCols,
      strContains q rUpd = true) ∧
    strContains (deleteHandlerQuery rls t (some pkClause) userWhereD) rDel = true ∧
    strContains (deleteHandlerQuery rls t none userWhereD) rDel = true ∧
    (∀ q ∈ nestedListQueries rls t cols fkWhere userAnd orderBy countReq,
      strContains q rSel = true) := by
  have hwS : userWhere = "" ∨ (∃ c, userWhere = " where " ++ c) ∨
      (∃ c, userWhere = " WHERE " ++ c) := hw.elim .inl (fun hc => .inr (.inl hc))
  have hwU3 : userWhereU = "" ∨ (∃ c, userWhereU = " where " ++ c) ∨
      (∃ c, userWhereU = " WHERE " ++ c) := hwU.elim .inl (fun hc => .inr (.inl hc))
  have hwD3 : userWhereD = "" ∨ (∃ c, userWhereD = " where " ++ c) ∨
      (∃ c, userWhereD = " WHERE " ++ c) := hwD.elim .inl (fun hc => .inr (.inr hc))
  have hinjS : containsData
      (injectPolicyClause (getPolicyWhereClause rls t "SELECT") " where " userWhere)
      rSel := by
    rw [hsel]; exact injectPolicyClause_contains rSel " where " userWhere hwS
  have hinjU : containsData
      (injectPolicyClause (getPolicyWhereClause rls t "UPDATE") " where " userWhereU)
      rUpd := by
    rw [hupd]; exact injectPolicyClause_contains rUpd " where " userWhereU hwU3
  have hinjD : containsData
      (injectPolicyClause (getPolicyWhereClause rls t "DELETE") " WHERE " userWhereD)
      rDel := by
    rw [hdel]; exact injectPolicyClause_contains rDel " WHERE " userWhereD hwD3
  refine ⟨?_, ?_, ?_, ?_, ?_, ?_, ?_⟩
  · intro q hq
    simp only [listHandlerQueries] at hq
    rcases List.mem_append.mp hq with h | h
    · cases countReq <;> simp at h
      subst h
      exact strContains_of_containsData _ _ (containsData_appendL _ _ _ hinjS)
    · simp at h
      subst h
      exact strContains_of_containsData _ _ (containsData_appendR _ _ _
        (containsData_appendR _ _ _ (containsData_appendL _ _ _ hinjS)))
  · simp only [readHandlerQuery, hsel]
    exact strContains_of_containsData _ _ (containsData_appendR _ _ _
      (containsData_appendL _ _ _ (containsData_paren_and rSel pkClause)))
  · simp only [updateHandlerQuery, hupd]
    exact strContains_of_containsData _ _
      (containsData_appendL _ _ _ (containsData_paren_and rUpd pkClause))
  · intro q hq
    simp only [patchHandlerQueries] at hq
    rcases List.mem_append.mp hq with h | h
    · cases hb : (returnRep && !pkCols.isEmpty) <;> simp [hb] at h
      subst h
      exact strContains_of_containsData _ _ (containsData_appendL _ _ _ hinjU)
    · simp at h
      subst h
      exact strContains_of_containsData _ _ (containsData_appendL _ _ _ hinjU)
  · simp only [deleteHandlerQuery, hdel]
    exact strContains_of_containsData _ _ (containsData_appendL _ _ _
      ⟨"WHERE (".data, ") AND ".data ++ pkClause.data, by simp [String.data_append]⟩)
  · simp only [deleteHandlerQuery]
    exact strContains_of_containsData _ _ (containsData_appendL _ _ _ hinjD)
  · intro q hq
    simp only [nestedListQueries, hsel] at hq
    have hcore : containsData (fkWhere ++ userAnd ++ " and (" ++ rSel ++ ")") rSel :=
      ⟨(fkWhere ++ userAnd).data ++ " and (".data, ")".data,
        by simp [String.data_append]⟩
    rcases List.mem_append.mp hq with h | h
    · cases countReq <;> simp at h
      subst h
      exact strContains_of_containsData _ _ (containsData_appendL _ _ _ hcore)
    · simp at h
      subst h
      exact strContains_of_containsData _ _ (containsData_appendR _ _ _
        (containsData_appendR _ _ _ (containsData_appendL _ _ _ hcore)))

/-- Closed witness for `policy_injection_amended`: the read and bulk
delete statements on `rls_test_data` under the demonstration ALL policy
carry the composed predicate. -/
theorem policy_injection_amended_witness :
    strContains (readHandlerQuery fullRls "rls_test_data" "id = 2")
      "(owner_role = @request_jwt_claim_role)" = true ∧
    strContains (deleteHandlerQuery fullRls "rls_test_data" none "")
      "(owner_role = @request_jwt_claim_role)" = true := by
  have h := policy_injection_amended fullRls "rls_test_data" " * " "" "id = 2" "" ""
    [] [] false false "" "" "" "(owner_role = @request_jwt_claim_role)"
    "(owner_role = @request_jwt_claim_role)" "(owner_role = @request_jwt_claim_role)"
    rfl rfl rfl (Or.inl rfl) (Or.inl rfl) (Or.inl rfl)
  exact ⟨h.2.1, h.2.2.2.2.2.1⟩

end MyRest
